import Mathlib

/-!
Shallow embedding of the NoteGenerator module of the noteWall repository.

The JavaScript class NoteGenerator keeps a list of local messages, a seen-set
of already dispensed texts, a prefetch cache of quote strings, a rotating
cursor over an ordered list of quote sources, and a list of note records
with a running count.  Numbers coming from the DOM (coordinates, sizes,
Math.random results) are modelled as rationals; the heart-curve positioning,
which uses trigonometry, is modelled over the reals.  Remote HTTP responses
are modelled by an oracle value holding the (optional) parsed JSON of each
endpoint for the current call; a missing response stands for a network
failure, timeout or parse error, all of which the code catches alike.
-/

namespace NoteWall

/-- One entry of the notes array: the recorded position of a rendered note
and a handle identifying its DOM element (modelled as a natural number). -/
structure NoteRec where
  x : ℚ
  y : ℚ
  element : ℕ
  deriving DecidableEq, Repr

/-- Names of the three quote sources in apiSources. The JavaScript name
local is a Lean keyword, hence localSource. -/
inductive SourceName where
  | hitokoto
  | jinrishici
  | localSource
  deriving DecidableEq, Repr

/-- One entry of the apiSources list: a source name and its enabled flag.
The url field only feeds the HTTP layer and is not part of the model. -/
structure Source where
  name : SourceName
  enabled : Bool
  deriving DecidableEq, Repr

/-- Parsed JSON of the hitokoto endpoint: a text field and an optional
origin field (data.from; from is a Lean keyword, hence from_). -/
structure HitokotoResp where
  hitokoto : String
  from_ : Option String
  deriving DecidableEq, Repr

/-- Parsed JSON of the jinrishici endpoint: a content field and an optional
author field. -/
structure JinrishiciResp where
  content : String
  author : Option String
  deriving DecidableEq, Repr

/-- The remote responses available to one aggregation attempt. none stands
for a thrown error (network failure, timeout, malformed JSON). Each source
is consulted at most once per fetchFromAPIs call, so one slot per source
suffices. -/
structure ApiOracle where
  hitokoto : Option HitokotoResp
  jinrishici : Option JinrishiciResp
  deriving DecidableEq, Repr

/-- Mutable fields of a NoteGenerator instance that the modelled methods
read or write. -/
structure GenState where
  messages : List String
  usedMessages : Finset String
  noteCount : ℤ
  notes : List NoteRec
  hitokotoCache : List String
  usedApiTexts : Finset String
  apiSources : List Source
  currentApiIndex : ℕ
  deriving DecidableEq

/-- The apiSources value set up by the constructor: hitokoto, jinrishici
and the local text library, all enabled. -/
def initApiSources : List Source :=
  [⟨.hitokoto, true⟩, ⟨.jinrishici, true⟩, ⟨.localSource, true⟩]

/-- The constructor state of NoteGenerator. -/
def initState : GenState :=
  { messages := []
    usedMessages := ∅
    noteCount := 0
    notes := []
    hitokotoCache := []
    usedApiTexts := ∅
    apiSources := initApiSources
    currentApiIndex := 0 }

/-- Math.floor (r * n) for a Math.random draw r, used to index an array of
length n. -/
def randIndex (r : ℚ) (n : ℕ) : ℕ :=
  ⌊r * n⌋₊

/-- Body of fetchHitokoto after a successful fetch: take data.hitokoto and
append the origin when data.from is truthy (present and non-empty), is not
the literal 网络 and has length below 15.  The appended separator in the
source is a newline followed by two em-dashes and a space. -/
def formatHitokoto (d : HitokotoResp) : String :=
  match d.from_ with
  | some f =>
      if f ≠ "" ∧ f ≠ "网络" ∧ f.length < 15 then d.hitokoto ++ "\n—— " ++ f
      else d.hitokoto
  | none => d.hitokoto

/-- Body of fetchJinrishici after a successful fetch: take data.content and
append the author when data.author is truthy and has length below 10.  The
source has no 网络 sentinel check here. -/
def formatJinrishici (d : JinrishiciResp) : String :=
  match d.author with
  | some a =>
      if a ≠ "" ∧ a.length < 10 then d.content ++ "\n—— " ++ a
      else d.content
  | none => d.content

/-- getLocalMessage: filter the local messages to those not in
usedApiTexts; when none remain, clear the set and pick from the full list,
otherwise pick from the filtered list.  Returns the picked text (none when
the indexed array slot is empty, the undefined of JavaScript) together with
the resulting usedApiTexts set. -/
def getLocalMessage (messages : List String) (used : Finset String) (r : ℚ) :
    Option String × Finset String :=
  let availableMessages := messages.filter fun msg => !decide (msg ∈ used)
  if availableMessages.length = 0 then
    (messages[randIndex r messages.length]?, (∅ : Finset String))
  else
    (availableMessages[randIndex r availableMessages.length]?, used)

/-- One source attempt inside the fetchFromAPIs loop: a remote source
yields its formatted oracle response (none when the fetch threw), the local
source calls getLocalMessage, whose clearing of usedApiTexts persists. -/
def sourceFetch (st : GenState) (o : ApiOracle) (r : ℚ) (s : SourceName) :
    Option String × GenState :=
  match s with
  | .hitokoto => (o.hitokoto.map formatHitokoto, st)
  | .jinrishici => (o.jinrishici.map formatJinrishici, st)
  | .localSource =>
      let lm := getLocalMessage st.messages st.usedApiTexts r
      (lm.1, { st with usedApiTexts := lm.2 })

/-- The for-loop of fetchFromAPIs, fuelled by the remaining iteration
count: read the source under the cursor, advance the cursor modulo the list
length, skip disabled sources, and accept the first truthy text not already
in usedApiTexts, recording it there; otherwise continue with the next
iteration, keeping any state change made by the attempt. -/
def fetchLoop : ℕ → GenState → ApiOracle → ℚ → Option String × GenState
  | 0, st, _, _ => (none, st)
  | fuel + 1, st, o, r =>
    match st.apiSources[st.currentApiIndex]? with
    | none => (none, st)
    | some source =>
      let st1 := { st with
        currentApiIndex := (st.currentApiIndex + 1) % st.apiSources.length }
      if source.enabled then
        let fr := sourceFetch st1 o r source.name
        match fr.1 with
        | some text =>
          if text ≠ "" ∧ text ∉ fr.2.usedApiTexts then
            (some text, { fr.2 with usedApiTexts := insert text fr.2.usedApiTexts })
          else
            fetchLoop fuel fr.2 o r
        | none => fetchLoop fuel fr.2 o r
      else
        fetchLoop fuel st1 o r

/-- fetchFromAPIs: run the loop once over the whole source list. -/
def fetchFromAPIs (st : GenState) (o : ApiOracle) (r : ℚ) :
    Option String × GenState :=
  fetchLoop st.apiSources.length st o r

/-- getRandomMessage: when the prefetch cache is non-empty, shift its front
element and request an asynchronous refill exactly when the remaining
length is below 3 (the third component records that fire-and-forget
request); when the cache is empty, return getLocalMessage directly. -/
def getRandomMessage (st : GenState) (o : ApiOracle) (r : ℚ) :
    Option String × GenState × Bool :=
  match st.hitokotoCache with
  | text :: rest =>
      (some text, { st with hitokotoCache := rest }, decide (rest.length < 3))
  | [] =>
      let lm := getLocalMessage st.messages st.usedApiTexts r
      (lm.1, { st with usedApiTexts := lm.2 }, false)

/-- Follows the spec's words, for comparison with the code: step 3 of the
aggregation algorithm, a local message chosen unconditionally from the full
list, bypassing deduplication. -/
def specUnconditionalLocalPick (messages : List String) (r : ℚ) : Option String :=
  messages[randIndex r messages.length]?

/-- The padding constant of getRandomPosition. -/
def padding : ℚ := 20

/-- The minDistance constant of getRandomPosition. -/
def minDistance : ℚ := 160

/-- One uniform sample inside the padded surface bounds, from a pair of
Math.random draws. -/
def samplePoint (w h noteWidth noteHeight : ℚ) (rand : ℚ × ℚ) : ℚ × ℚ :=
  (padding + rand.1 * (w - noteWidth - padding * 2),
   padding + rand.2 * (h - noteHeight - padding * 2))

/-- The overlap test of getRandomPosition.  The source compares
Math.sqrt (dx * dx + dy * dy) < minDistance; both sides being non-negative,
this is equivalent to comparing the squares, which keeps the test rational
and decidable. -/
def tooClose (notes : List NoteRec) (p : ℚ × ℚ) : Bool :=
  notes.any fun note =>
    decide ((note.x - p.1) * (note.x - p.1) + (note.y - p.2) * (note.y - p.2)
      < minDistance * minDistance)

/-- The attempt loop of getRandomPosition: k counts the Math.random pairs
already drawn, fuel the attempts left.  When the budget is exhausted the
function draws one more pair and returns that point unconditionally. -/
def getRandomPositionAux (w h noteWidth noteHeight : ℚ) (notes : List NoteRec)
    (rands : ℕ → ℚ × ℚ) : ℕ → ℕ → ℚ × ℚ
  | k, 0 => samplePoint w h noteWidth noteHeight (rands k)
  | k, fuel + 1 =>
    let p := samplePoint w h noteWidth noteHeight (rands k)
    if tooClose notes p then
      getRandomPositionAux w h noteWidth noteHeight notes rands (k + 1) fuel
    else p

/-- getRandomPosition with its maxAttempts = 30 budget. -/
def getRandomPosition (w h noteWidth noteHeight : ℚ) (notes : List NoteRec)
    (rands : ℕ → ℚ × ℚ) : ℚ × ℚ :=
  getRandomPositionAux w h noteWidth noteHeight notes rands 0 30

/-- The responsive scale of getHeartPosition as a function of the smaller
surface dimension. -/
noncomputable def heartScale (baseScale : ℝ) : ℝ :=
  if baseScale < 500 then baseScale * 0.025
  else if baseScale < 768 then baseScale * 0.028
  else if baseScale < 1024 then baseScale * 0.032
  else baseScale * 0.035

/-- getHeartPosition: the heart parametric curve at angle
(index / totalNotes) * 2 * pi, scaled by heartScale of the smaller surface
dimension, centred on the surface and shifted by half the nominal note
size. -/
noncomputable def getHeartPosition (w h : ℝ) (index totalNotes : ℕ) : ℝ × ℝ :=
  let centerX := w / 2
  let centerY := h / 2
  let angle := ((index : ℝ) / (totalNotes : ℝ)) * Real.pi * 2
  let baseScale := min w h
  let scale := heartScale baseScale
  let t := angle
  let x := 16 * Real.sin t ^ 3 * scale
  let y := -(13 * Real.cos t - 5 * Real.cos (2 * t) - 2 * Real.cos (3 * t)
      - Real.cos (4 * t)) * scale
  (centerX + x - 50, centerY + y - 50)

/-- The bookkeeping part of generateNote: push a record of the new note's
position and element onto notes and increment noteCount. -/
def generateNoteRec (st : GenState) (x y : ℚ) (element : ℕ) : GenState :=
  { st with
    notes := st.notes ++ [⟨x, y, element⟩]
    noteCount := st.noteCount + 1 }

/-- removeNote: find the record whose element matches, splice it out and
decrement noteCount; when no record matches, change nothing. -/
def removeNote (st : GenState) (noteElement : ℕ) : GenState :=
  match st.notes.findIdx? (fun note => note.element == noteElement) with
  | some index =>
      { st with
        notes := st.notes.eraseIdx index
        noteCount := st.noteCount - 1 }
  | none => st

/-- clearAll: empty the notes list, reset noteCount and clear
usedMessages. -/
def clearAll (st : GenState) : GenState :=
  { st with
    notes := []
    noteCount := 0
    usedMessages := ∅ }

/-- updateNotePosition: overwrite the x and y fields of the record at the
first index whose element matches; when no record matches, change
nothing. -/
def updateNotePosition (st : GenState) (noteElement : ℕ) (x y : ℚ) : GenState :=
  match st.notes.findIdx? (fun note => note.element == noteElement) with
  | some index =>
      match st.notes[index]? with
      | some old => { st with notes := st.notes.set index { old with x := x, y := y } }
      | none => st
  | none => st

/-- getCount: return noteCount. -/
def getCount (st : GenState) : ℤ :=
  st.noteCount


/-! ### Shared concrete states and helper lemmas -/

/-- An oracle on which both remote endpoints fail. -/
def exOracle0 : ApiOracle := ⟨none, none⟩

/-- An oracle on which the hitokoto endpoint answers with the text remote
and no origin, and the jinrishici endpoint fails. -/
def exOracle1 : ApiOracle := ⟨some ⟨"remote", none⟩, none⟩

/-- The constructor state with a single local message. -/
def exSt1 : GenState := { initState with messages := ["a"] }

/-- The constructor state with two local messages. -/
def exSt3 : GenState := { initState with messages := ["a", "b"] }

/-- Two local messages of which the first is already in the seen-set. -/
def exSt6 : GenState :=
  { initState with messages := ["a", "b"], usedApiTexts := {"a"} }

/-- A Math.random draw of 0 indexes slot 0. -/
theorem randIndex_zero (n : ℕ) : randIndex 0 n = 0 := by
  simp [randIndex]

/-- A Math.random draw in the unit interval indexes inside the array. -/
theorem randIndex_lt {r : ℚ} {n : ℕ} (h0 : 0 ≤ r) (h1 : r < 1) (hn : 0 < n) :
    randIndex r n < n := by
  have : r * (n : ℚ) < (n : ℚ) :=
    mul_lt_of_lt_one_left (by exact_mod_cast hn) h1
  simpa [randIndex] using (Nat.floor_lt (by positivity)).mpr this

/-! ### C2: attribution formatting -/

/-- C2 counterexample: the jinrishici source appends an author equal to the
literal 网络 (it has no sentinel check), and the separator actually
appended is a double em-dash, not the single em-dash form of the claim. -/
theorem c2_counterexample :
    formatJinrishici ⟨"海内存知己", some "网络"⟩ = "海内存知己" ++ "\n—— " ++ "网络" ∧
    formatJinrishici ⟨"海内存知己", some "网络"⟩ ≠ "海内存知己" ∧
    formatHitokoto ⟨"溪云初起", some "苏轼"⟩ ≠ "溪云初起" ++ "\n— " ++ "苏轼" := by
  refine ⟨?_, ?_, ?_⟩ <;> decide

/-- C2 (amended): the hitokoto source appends the attribution line (in the
form of a newline, two em-dashes, a space and the author) if and only if
the origin field is present, non-empty, not the literal 网络 and of length
below 15; the jinrishici source appends it if and only if the author field
is present, non-empty and of length below 10, with no 网络 sentinel check.
The clauses cover every case of each biconditional: appended under the
stated conditions, unchanged when the field is a present empty string
(falsy in the source), the 网络 sentinel (hitokoto only), at or above the
cap, or absent. -/
theorem attribution_rules (c f : String) :
    (f ≠ "" → f ≠ "网络" → f.length < 15 →
      formatHitokoto ⟨c, some f⟩ = c ++ "\n—— " ++ f) ∧
    (formatHitokoto ⟨c, some ""⟩ = c) ∧
    (formatHitokoto ⟨c, some "网络"⟩ = c) ∧
    (15 ≤ f.length → formatHitokoto ⟨c, some f⟩ = c) ∧
    (formatHitokoto ⟨c, none⟩ = c) ∧
    (f ≠ "" → f.length < 10 → formatJinrishici ⟨c, some f⟩ = c ++ "\n—— " ++ f) ∧
    (formatJinrishici ⟨c, some ""⟩ = c) ∧
    (10 ≤ f.length → formatJinrishici ⟨c, some f⟩ = c) ∧
    (formatJinrishici ⟨c, none⟩ = c) := by
  refine ⟨?_, ?_, ?_, ?_, ?_, ?_, ?_, ?_, ?_⟩
  · intro h1 h2 h3
    simp [formatHitokoto, h1, h2, h3]
  · simp [formatHitokoto]
  · simp [formatHitokoto]
  · intro h
    have h15 : ¬ f.length < 15 := by omega
    simp [formatHitokoto, h15]
  · simp [formatHitokoto]
  · intro h1 h2
    simp [formatJinrishici, h1, h2]
  · simp [formatJinrishici]
  · intro h
    have h10 : ¬ f.length < 10 := by omega
    simp [formatJinrishici, h10]
  · simp [formatJinrishici]

/-- C2 witness: a one-character author below both caps is appended by both
sources. -/
theorem attribution_rules_witness :
    formatHitokoto ⟨"a", some "b"⟩ = "a" ++ "\n—— " ++ "b" ∧
    formatJinrishici ⟨"a", some "b"⟩ = "a" ++ "\n—— " ++ "b" :=
  ⟨(attribution_rules "a" "b").1 (by decide) (by decide) (by decide),
   (attribution_rules "a" "b").2.2.2.2.2.1 (by decide) (by decide)⟩

/-! ### C5: responsive scale breakpoints -/

/-- C5: the scale of getHeartPosition is a function of the smaller surface
dimension, with the breakpoint boundaries landing as the table says: 499
gets factor 0.025, exactly 500 gets 0.028, the range from 768 up to but
excluding 1024 gets 0.032, and 1024 and above gets 0.035. -/
theorem heartScale_breakpoints (w h : ℝ) :
    (min w h = 499 → heartScale (min w h) = min w h * 0.025) ∧
    (min w h = 500 → heartScale (min w h) = min w h * 0.028) ∧
    (768 ≤ min w h → min w h < 1024 → heartScale (min w h) = min w h * 0.032) ∧
    (1024 ≤ min w h → heartScale (min w h) = min w h * 0.035) := by
  refine ⟨?_, ?_, ?_, ?_⟩
  · intro h1
    rw [h1]
    norm_num [heartScale]
  · intro h1
    rw [h1]
    norm_num [heartScale]
  · intro h1 h2
    rw [heartScale, if_neg (not_lt.mpr (by linarith)), if_neg (not_lt.mpr (by linarith)),
      if_pos h2]
  · intro h1
    rw [heartScale, if_neg (not_lt.mpr (by linarith)), if_neg (not_lt.mpr (by linarith)),
      if_neg (not_lt.mpr (by linarith))]

/-- C5 witness: the boundary surfaces 499 and 1024, taken square so that
the smaller dimension is the value itself. -/
theorem heartScale_breakpoints_witness :
    heartScale (min (499 : ℝ) 499) = min (499 : ℝ) 499 * 0.025 ∧
    heartScale (min (1024 : ℝ) 1024) = min (1024 : ℝ) 1024 * 0.035 :=
  ⟨(heartScale_breakpoints 499 499).1 (by norm_num),
   (heartScale_breakpoints 1024 1024).2.2.2 (by norm_num [min_self])⟩

/-! ### C8: heart-curve angle periodicity -/

/-- C8: for every positive totalSlots N and fixed surface dimensions,
getHeartPosition at index 0 and at index N give the same point, because
the angle (index / N) * 2 * pi is periodic at 2 * pi in the heart
parametric equations. -/
theorem getHeartPosition_periodic (w h : ℝ) (N : ℕ) (hN : 0 < N) :
    getHeartPosition w h 0 N = getHeartPosition w h N N := by
  have hN' : (N : ℝ) ≠ 0 := Nat.cast_ne_zero.mpr hN.ne'
  have s1 : Real.sin (Real.pi * 2) = 0 := by rw [mul_comm]; exact Real.sin_two_pi
  have c1 : Real.cos (Real.pi * 2) = 1 := by rw [mul_comm]; exact Real.cos_two_pi
  have c2 : Real.cos (2 * (Real.pi * 2)) = 1 := by
    rw [show (2 : ℝ) * (Real.pi * 2) = (2 : ℕ) * (2 * Real.pi) by push_cast; ring]
    exact Real.cos_nat_mul_two_pi 2
  have c3 : Real.cos (3 * (Real.pi * 2)) = 1 := by
    rw [show (3 : ℝ) * (Real.pi * 2) = (3 : ℕ) * (2 * Real.pi) by push_cast; ring]
    exact Real.cos_nat_mul_two_pi 3
  have c4 : Real.cos (4 * (Real.pi * 2)) = 1 := by
    rw [show (4 : ℝ) * (Real.pi * 2) = (4 : ℕ) * (2 * Real.pi) by push_cast; ring]
    exact Real.cos_nat_mul_two_pi 4
  simp only [getHeartPosition, Nat.cast_zero, zero_div, zero_mul, div_self hN', one_mul]
  rw [s1, c1, c2, c3, c4]
  norm_num

/-- C8 witness: the two endpoints coincide on an 800 by 600 surface with
5 slots. -/
theorem getHeartPosition_periodic_witness :
    getHeartPosition 800 600 0 5 = getHeartPosition 800 600 5 5 :=
  getHeartPosition_periodic 800 600 5 (by norm_num)

/-! ### C1: behaviour of getRandomMessage on an empty cache -/

/-- C1 counterexample: with an empty prefetch cache, one local message,
the cursor at the hitokoto source and that source answering with the text
remote, getRandomMessage returns the local message, not the text that
fetchFromAPIs would resolve, and it leaves the rotating cursor untouched:
the empty-cache path does not go through fetchFromAPIs at all. -/
theorem c1_counterexample :
    (getRandomMessage exSt1 exOracle1 0).1 = some "a" ∧
    (fetchFromAPIs exSt1 exOracle1 0).1 = some "remote" ∧
    (getRandomMessage exSt1 exOracle1 0).1 ≠ (fetchFromAPIs exSt1 exOracle1 0).1 ∧
    (getRandomMessage exSt1 exOracle1 0).2.1.currentApiIndex = exSt1.currentApiIndex := by
  have h1 : (getRandomMessage exSt1 exOracle1 0).1 = some "a" := by
    simp [getRandomMessage, exSt1, initState, getLocalMessage, randIndex_zero]
  have h2 : (fetchFromAPIs exSt1 exOracle1 0).1 = some "remote" := by
    simp [fetchFromAPIs, fetchLoop, exSt1, initState, initApiSources, sourceFetch,
      exOracle1, formatHitokoto]
  refine ⟨h1, h2, ?_, ?_⟩
  · rw [h1, h2]
    decide
  · simp [getRandomMessage, exSt1, initState, getLocalMessage, randIndex_zero]

/-- C1 (amended): when the prefetch cache is empty, getRandomMessage
resolves the quote by getLocalMessage alone: its result is the local pick,
it is independent of the remote sources, the rotating cursor is unchanged
and no refill is requested. -/
theorem getRandomMessage_empty_cache (st : GenState) (o o' : ApiOracle) (r : ℚ)
    (hc : st.hitokotoCache = []) :
    (getRandomMessage st o r).1 = (getLocalMessage st.messages st.usedApiTexts r).1 ∧
    getRandomMessage st o r = getRandomMessage st o' r ∧
    (getRandomMessage st o r).2.1.currentApiIndex = st.currentApiIndex ∧
    (getRandomMessage st o r).2.2 = false := by
  refine ⟨?_, ?_, ?_, ?_⟩ <;> simp [getRandomMessage, hc]

/-- C1 witness: the amended statement evaluated on the concrete
empty-cache state. -/
theorem getRandomMessage_empty_cache_witness :
    (getRandomMessage exSt1 exOracle1 0).1 =
      (getLocalMessage exSt1.messages exSt1.usedApiTexts 0).1 ∧
    getRandomMessage exSt1 exOracle1 0 = getRandomMessage exSt1 exOracle0 0 ∧
    (getRandomMessage exSt1 exOracle1 0).2.1.currentApiIndex = exSt1.currentApiIndex ∧
    (getRandomMessage exSt1 exOracle1 0).2.2 = false :=
  getRandomMessage_empty_cache exSt1 exOracle1 exOracle0 0 rfl

/-! ### C7: cache pop, FIFO order and the refill low-water mark -/

/-- C7: when the prefetch cache is non-empty, getRandomMessage pops and
returns the front item, the rest of the state keeps everything but the
cache, the asynchronous refill is requested exactly when the pop brings
the cache length below 3, and a cache seeded with two items yields those
two items in order on the first two calls. -/
theorem getRandomMessage_cache_pop (st : GenState) (o : ApiOracle) (r : ℚ)
    (t : String) (rest : List String) (hc : st.hitokotoCache = t :: rest) :
    (getRandomMessage st o r).1 = some t ∧
    (getRandomMessage st o r).2.1 = { st with hitokotoCache := rest } ∧
    ((getRandomMessage st o r).2.2 = true ↔ rest.length < 3) ∧
    (∀ u rest2, rest = u :: rest2 →
      (getRandomMessage ((getRandomMessage st o r).2.1) o r).1 = some u) := by
  refine ⟨?_, ?_, ?_, ?_⟩
  · simp [getRandomMessage, hc]
  · simp [getRandomMessage, hc]
  · simp [getRandomMessage, hc]
  · intro u rest2 hrest
    subst hrest
    simp [getRandomMessage, hc]

/-- A state whose prefetch cache is seeded with two items. -/
def exSt7 : GenState := { initState with messages := ["a"], hitokotoCache := ["p", "q"] }

/-- C7 witness: the two seeded items come out in order. -/
theorem getRandomMessage_cache_pop_witness :
    (getRandomMessage exSt7 exOracle0 0).1 = some "p" ∧
    (getRandomMessage ((getRandomMessage exSt7 exOracle0 0).2.1) exOracle0 0).1 = some "q" :=
  ⟨(getRandomMessage_cache_pop exSt7 exOracle0 0 "p" ["q"] rfl).1,
   (getRandomMessage_cache_pop exSt7 exOracle0 0 "p" ["q"] rfl).2.2.2 "q" [] rfl⟩

/-! ### C3: consecutive local repeats and the seen-set -/

/-- Every accepted text of the fetchFromAPIs loop is recorded in the
resulting seen-set. -/
theorem fetchLoop_records (fuel : ℕ) :
    ∀ (st : GenState) (o : ApiOracle) (r : ℚ) (t : String) (st2 : GenState),
      fetchLoop fuel st o r = (some t, st2) → t ∈ st2.usedApiTexts := by
  induction fuel with
  | zero =>
    intro st o r t st2 h
    simp [fetchLoop] at h
  | succ fuel ih =>
    intro st o r t st2 h
    rw [fetchLoop] at h
    split at h
    · simp at h
    · dsimp only at h
      split at h
      · split at h
        · split at h
          · rw [Prod.mk.injEq] at h
            obtain ⟨ht, hst⟩ := h
            subst hst
            simp only [Option.some.injEq] at ht
            subst ht
            exact Finset.mem_insert_self _ _
          · exact ih _ o r t st2 h
        · exact ih _ o r t st2 h
      · exact ih _ o r t st2 h

/-- C3 counterexample: with two local messages, an empty seen-set and the
same random draw, two consecutive getRandomMessage calls both return the
first message, and the seen-set after the first call is unchanged: the
direct local path of getRandomMessage does not record the dispensed text,
so consecutive identical results happen with a pool of size 2. -/
theorem c3_counterexample :
    (getRandomMessage exSt3 exOracle0 0).1 = some "a" ∧
    (getRandomMessage ((getRandomMessage exSt3 exOracle0 0).2.1) exOracle0 0).1 = some "a" ∧
    (getRandomMessage exSt3 exOracle0 0).2.1.usedApiTexts = exSt3.usedApiTexts ∧
    exSt3.messages.length = 2 := by
  refine ⟨?_, ?_, ?_, ?_⟩ <;>
    simp [getRandomMessage, exSt3, initState, getLocalMessage, randIndex_zero]

/-- C3 (amended): deduplication through the seen-set happens only inside
fetchFromAPIs: the empty-cache path of getRandomMessage leaves the
seen-set exactly as getLocalMessage does (it records nothing); when
unseen local messages remain, getLocalMessage keeps the seen-set and its
pick is never a seen text; the seen-set is cleared exactly when all local
alternatives are exhausted; and a text accepted by the fetchFromAPIs loop
is recorded into the seen-set. -/
theorem local_dedup_behavior :
    (∀ (st : GenState) (o : ApiOracle) (r : ℚ), st.hitokotoCache = [] →
      (getRandomMessage st o r).2.1.usedApiTexts =
        (getLocalMessage st.messages st.usedApiTexts r).2) ∧
    (∀ (messages : List String) (used : Finset String) (r : ℚ),
      (messages.filter fun msg => !decide (msg ∈ used)) ≠ [] →
      (getLocalMessage messages used r).2 = used ∧
      ∀ t, (getLocalMessage messages used r).1 = some t → t ∉ used) ∧
    (∀ (messages : List String) (used : Finset String) (r : ℚ),
      (messages.filter fun msg => !decide (msg ∈ used)) = [] →
      (getLocalMessage messages used r).2 = ∅) ∧
    (∀ (fuel : ℕ) (st : GenState) (o : ApiOracle) (r : ℚ) (t : String) (st2 : GenState),
      fetchLoop fuel st o r = (some t, st2) → t ∈ st2.usedApiTexts) := by
  refine ⟨?_, ?_, ?_, fetchLoop_records⟩
  · intro st o r hc
    simp [getRandomMessage, hc]
  · intro messages used r hne
    have hlen : ¬ (messages.filter fun msg => !decide (msg ∈ used)).length = 0 := by
      simpa [List.length_eq_zero] using hne
    unfold getLocalMessage
    rw [if_neg hlen]
    refine ⟨rfl, ?_⟩
    intro t ht
    simp only at ht
    have hmem : t ∈ messages.filter fun msg => !decide (msg ∈ used) :=
      List.getElem?_mem ht
    have := (List.mem_filter.mp hmem).2
    simpa using this
  · intro messages used r hfe
    unfold getLocalMessage
    rw [if_pos (by simp [hfe])]

/-- C3 witness: with messages a and b and only a seen, the local pick
keeps the seen-set and avoids the seen text. -/
theorem local_dedup_behavior_witness :
    (getLocalMessage ["a", "b"] {"a"} 0).2 = {"a"} ∧
    ("b" : String) ∉ ({"a"} : Finset String) :=
  ⟨(local_dedup_behavior.2.1 ["a", "b"] {"a"} 0 (by simp)).1,
   (local_dedup_behavior.2.1 ["a", "b"] {"a"} 0 (by simp)).2 "b"
     (by simp [getLocalMessage, randIndex_zero])⟩

/-! ### C6: the aggregator never fails -/

/-- C6 counterexample: with both remote sources failing, an empty cache
and the first of two local messages already seen, getRandomMessage
returns the unseen message, not the unconditional dedup-bypassing pick
the claim describes (which the same random draw would make the seen first
message). -/
theorem c6_counterexample :
    (getRandomMessage exSt6 exOracle0 0).1 = some "b" ∧
    specUnconditionalLocalPick exSt6.messages 0 = some "a" ∧
    (getRandomMessage exSt6 exOracle0 0).1 ≠ specUnconditionalLocalPick exSt6.messages 0 := by
  have h1 : (getRandomMessage exSt6 exOracle0 0).1 = some "b" := by
    simp [getRandomMessage, exSt6, initState, getLocalMessage, randIndex_zero]
  have h2 : specUnconditionalLocalPick exSt6.messages 0 = some "a" := by
    simp [specUnconditionalLocalPick, exSt6, initState, randIndex_zero]
  refine ⟨h1, h2, ?_⟩
  rw [h1, h2]
  decide

/-- C6 (amended): provided the local message list is non-empty and the
random draw lies in the unit interval, getRandomMessage always returns
some text, and that text comes from the prefetch cache or from the local
pool; the empty-cache path applies the seen-set filter of
getLocalMessage rather than an unconditional dedup-bypassing pick. -/
theorem getRandomMessage_total (st : GenState) (o : ApiOracle) (r : ℚ)
    (hm : st.messages ≠ []) (h0 : 0 ≤ r) (h1 : r < 1) :
    ∃ t, (getRandomMessage st o r).1 = some t ∧
      (t ∈ st.hitokotoCache ∨ t ∈ st.messages) := by
  cases hc : st.hitokotoCache with
  | cons head rest =>
    exact ⟨head, by simp [getRandomMessage, hc], Or.inl (List.mem_cons_self _ _)⟩
  | nil =>
    have hlen : 0 < st.messages.length := List.length_pos.mpr hm
    unfold getRandomMessage
    rw [hc]
    unfold getLocalMessage
    by_cases ha : (st.messages.filter fun msg => !decide (msg ∈ st.usedApiTexts)).length = 0
    · rw [if_pos ha]
      have hidx := randIndex_lt h0 h1 hlen
      refine ⟨st.messages[randIndex r st.messages.length], ?_, Or.inr (List.getElem_mem _)⟩
      simp [List.getElem?_eq_getElem hidx]
    · rw [if_neg ha]
      have hpos : 0 < (st.messages.filter fun msg => !decide (msg ∈ st.usedApiTexts)).length :=
        Nat.pos_of_ne_zero ha
      have hidx := randIndex_lt h0 h1 hpos
      refine ⟨(st.messages.filter fun msg => !decide (msg ∈ st.usedApiTexts))[randIndex r _], ?_,
        Or.inr ?_⟩
      · simp [List.getElem?_eq_getElem hidx]
      · exact (List.mem_filter.mp (List.getElem_mem _)).1

/-- C6 witness: on the concrete failing-sources state the aggregator
still returns a local text. -/
theorem getRandomMessage_total_witness :
    ∃ t, (getRandomMessage exSt6 exOracle0 0).1 = some t ∧
      (t ∈ exSt6.hitokotoCache ∨ t ∈ exSt6.messages) :=
  getRandomMessage_total exSt6 exOracle0 0 (by decide) (by norm_num) (by norm_num)

/-! ### C4: random non-overlapping placement -/

/-- The attempt loop either stops at a point that is far enough from all
recorded notes, or runs out of budget and returns the sample drawn right
after the failed attempts; either way the result is one of the drawn
samples. -/
theorem getRandomPositionAux_cases (w h nW nH : ℚ) (notes : List NoteRec)
    (rands : ℕ → ℚ × ℚ) :
    ∀ (fuel k : ℕ),
      (tooClose notes (getRandomPositionAux w h nW nH notes rands k fuel) = false ∧
        ∃ j, getRandomPositionAux w h nW nH notes rands k fuel =
          samplePoint w h nW nH (rands j)) ∨
      getRandomPositionAux w h nW nH notes rands k fuel =
        samplePoint w h nW nH (rands (k + fuel)) := by
  intro fuel
  induction fuel with
  | zero =>
    intro k
    right
    rfl
  | succ fuel ih =>
    intro k
    rw [getRandomPositionAux]
    by_cases htc : tooClose notes (samplePoint w h nW nH (rands k)) = true
    · rw [if_pos htc]
      rcases ih (k + 1) with hl | hr
      · exact Or.inl hl
      · right
        rw [hr, show k + 1 + fuel = k + (fuel + 1) by omega]
    · rw [if_neg htc]
      exact Or.inl ⟨Bool.not_eq_true _ |>.mp htc, k, rfl⟩

/-- Every sample drawn from unit-interval randomness lands inside the
padded surface bounds, provided the padded area is non-degenerate. -/
theorem samplePoint_bounds (w h nW nH : ℚ) (rand : ℚ × ℚ)
    (h1 : 0 ≤ rand.1) (h2 : rand.1 ≤ 1) (h3 : 0 ≤ rand.2) (h4 : rand.2 ≤ 1)
    (hw : 0 ≤ w - nW - padding * 2) (hh : 0 ≤ h - nH - padding * 2) :
    padding ≤ (samplePoint w h nW nH rand).1 ∧
    (samplePoint w h nW nH rand).1 ≤ padding + (w - nW - padding * 2) ∧
    padding ≤ (samplePoint w h nW nH rand).2 ∧
    (samplePoint w h nW nH rand).2 ≤ padding + (h - nH - padding * 2) := by
  unfold samplePoint
  refine ⟨?_, ?_, ?_, ?_⟩
  · simp only
    nlinarith [mul_nonneg h1 hw]
  · simp only
    nlinarith [mul_le_of_le_one_left hw h2]
  · simp only
    nlinarith [mul_nonneg h3 hh]
  · simp only
    nlinarith [mul_le_of_le_one_left hh h4]

/-- Failing the overlap test means being at squared distance of at least
minDistance squared from every recorded note. -/
theorem tooClose_eq_false_iff (notes : List NoteRec) (p : ℚ × ℚ) :
    tooClose notes p = false ↔
      ∀ note ∈ notes,
        minDistance * minDistance ≤
          (note.x - p.1) * (note.x - p.1) + (note.y - p.2) * (note.y - p.2) := by
  simp [tooClose, not_lt]

/-- C4: every point getRandomPosition accepts within the 30-attempt budget
is at distance at least minDistance from all recorded notes (stated on
squared distances, which the source compares through a square root), the
only other possibility being the unconditional sample drawn after 30
failures; and in all cases the returned coordinate lies within the padded
surface bounds. -/
theorem getRandomPosition_spec (w h nW nH : ℚ) (notes : List NoteRec)
    (rands : ℕ → ℚ × ℚ)
    (hr : ∀ k, 0 ≤ (rands k).1 ∧ (rands k).1 ≤ 1 ∧ 0 ≤ (rands k).2 ∧ (rands k).2 ≤ 1)
    (hw : 0 ≤ w - nW - padding * 2) (hh : 0 ≤ h - nH - padding * 2) :
    ((∀ note ∈ notes,
        minDistance * minDistance ≤
          (note.x - (getRandomPosition w h nW nH notes rands).1) *
            (note.x - (getRandomPosition w h nW nH notes rands).1) +
          (note.y - (getRandomPosition w h nW nH notes rands).2) *
            (note.y - (getRandomPosition w h nW nH notes rands).2)) ∨
      getRandomPosition w h nW nH notes rands = samplePoint w h nW nH (rands 30)) ∧
    padding ≤ (getRandomPosition w h nW nH notes rands).1 ∧
    (getRandomPosition w h nW nH notes rands).1 ≤ padding + (w - nW - padding * 2) ∧
    padding ≤ (getRandomPosition w h nW nH notes rands).2 ∧
    (getRandomPosition w h nW nH notes rands).2 ≤ padding + (h - nH - padding * 2) := by
  have hcases := getRandomPositionAux_cases w h nW nH notes rands 30 0
  rw [show getRandomPositionAux w h nW nH notes rands 0 30 =
      getRandomPosition w h nW nH notes rands from rfl] at hcases
  have hsample : ∃ j, getRandomPosition w h nW nH notes rands =
      samplePoint w h nW nH (rands j) := by
    rcases hcases with ⟨_, j, hj⟩ | hr30
    · exact ⟨j, hj⟩
    · exact ⟨30, hr30⟩
  constructor
  · rcases hcases with ⟨htc, _⟩ | hr30
    · exact Or.inl ((tooClose_eq_false_iff notes _).mp htc)
    · exact Or.inr hr30
  · obtain ⟨j, hj⟩ := hsample
    rw [hj]
    exact samplePoint_bounds w h nW nH (rands j)
      (hr j).1 (hr j).2.1 (hr j).2.2.1 (hr j).2.2.2 hw hh

/-- C4 witness: an 800 by 600 surface, a 100 by 100 note, no prior notes
and constant zero randomness stay within the horizontal bounds. -/
theorem getRandomPosition_spec_witness :
    padding ≤ (getRandomPosition 800 600 100 100 [] fun _ => (0, 0)).1 ∧
    (getRandomPosition 800 600 100 100 [] fun _ => (0, 0)).1 ≤
      padding + (800 - 100 - padding * 2) :=
  ⟨(getRandomPosition_spec 800 600 100 100 [] (fun _ => (0, 0))
      (fun _ => by norm_num) (by norm_num [padding]) (by norm_num [padding])).2.1,
   (getRandomPosition_spec 800 600 100 100 [] (fun _ => (0, 0))
      (fun _ => by norm_num) (by norm_num [padding]) (by norm_num [padding])).2.2.1⟩

/-! ### C9: the count invariant -/

/-- The invariant of C9: noteCount equals the number of recorded notes. -/
def countInv (st : GenState) : Prop := st.noteCount = (st.notes.length : ℤ)

/-- C9: noteCount equals the length of the notes list initially and after
every operation: generateNote appends one record and increments the count,
removeNote erases one record and decrements the count exactly when a
record with the given element exists and changes nothing otherwise,
clearAll resets both, and getCount reports the number of records. -/
theorem noteCount_invariant :
    countInv initState ∧
    (∀ (st : GenState) (x y : ℚ) (e : ℕ), countInv st →
      countInv (generateNoteRec st x y e) ∧
      (generateNoteRec st x y e).notes.length = st.notes.length + 1 ∧
      (generateNoteRec st x y e).noteCount = st.noteCount + 1) ∧
    (∀ (st : GenState) (e : ℕ), countInv st → countInv (removeNote st e)) ∧
    (∀ (st : GenState) (e : ℕ), (∀ n ∈ st.notes, n.element ≠ e) → removeNote st e = st) ∧
    (∀ (st : GenState) (e : ℕ) (i : ℕ),
      st.notes.findIdx? (fun note => note.element == e) = some i →
      (removeNote st e).notes.length + 1 = st.notes.length ∧
      (removeNote st e).noteCount = st.noteCount - 1) ∧
    (∀ st : GenState, countInv (clearAll st)) ∧
    (∀ st : GenState, countInv st → getCount st = (st.notes.length : ℤ)) := by
  have hfound : ∀ (st : GenState) (e i : ℕ),
      st.notes.findIdx? (fun note => note.element == e) = some i →
      (removeNote st e).notes.length + 1 = st.notes.length ∧
      (removeNote st e).noteCount = st.noteCount - 1 := by
    intro st e i hidx
    have hi : i < st.notes.length := (List.findIdx?_eq_some_iff_findIdx_eq.mp hidx).1
    unfold removeNote
    rw [hidx]
    constructor
    · simp only [List.length_eraseIdx, if_pos hi]
      omega
    · rfl
  refine ⟨?_, ?_, ?_, ?_, hfound, ?_, ?_⟩
  · simp [countInv, initState]
  · intro st x y e hinv
    unfold countInv generateNoteRec at *
    refine ⟨?_, by simp, rfl⟩
    simp only [List.length_append, List.length_cons, List.length_nil]
    push_cast
    omega
  · intro st e hinv
    cases hidx : st.notes.findIdx? (fun note => note.element == e) with
    | none =>
      unfold removeNote
      rw [hidx]
      exact hinv
    | some i =>
      obtain ⟨hlen, hcount⟩ := hfound st e i hidx
      unfold countInv at *
      omega
  · intro st e hno
    have hidx : st.notes.findIdx? (fun note => note.element == e) = none := by
      rw [List.findIdx?_eq_none_iff]
      intro n hn
      simpa using hno n hn
    unfold removeNote
    rw [hidx]
  · intro st
    simp [countInv, clearAll]
  · intro st hinv
    exact hinv

/-- C9 witness: the invariant carried through a concrete generate and
remove. -/
theorem noteCount_invariant_witness :
    countInv (generateNoteRec initState 1 2 7) ∧
    countInv (removeNote (generateNoteRec initState 1 2 7) 7) :=
  ⟨(noteCount_invariant.2.1 initState 1 2 7 (by simp [countInv, initState])).1,
   noteCount_invariant.2.2.1 (generateNoteRec initState 1 2 7) 7
     (noteCount_invariant.2.1 initState 1 2 7 (by simp [countInv, initState])).1⟩

/-! ### C10: the frame of updateNotePosition -/

/-- Two recorded notes with elements 1 and 2. -/
def exSt10 : GenState :=
  { initState with notes := [⟨0, 0, 1⟩, ⟨5, 5, 2⟩], noteCount := 2 }

/-- C10: updateNotePosition overwrites only the x and y fields of the
record found for the given element, keeping that record's element, every
other record, the list length, the count, the message list, both caches
and sets, the cursor and the source list; and when no record matches the
element, the whole state is unchanged. -/
theorem updateNotePosition_frame (st : GenState) (e : ℕ) (x y : ℚ) :
    ((∀ n ∈ st.notes, n.element ≠ e) → updateNotePosition st e x y = st) ∧
    (∀ (i : ℕ) (old : NoteRec),
      st.notes.findIdx? (fun note => note.element == e) = some i →
      st.notes[i]? = some old →
      (updateNotePosition st e x y).notes[i]? = some { old with x := x, y := y } ∧
      { old with x := x, y := y : NoteRec }.element = old.element ∧
      (∀ j, j ≠ i → (updateNotePosition st e x y).notes[j]? = st.notes[j]?) ∧
      (updateNotePosition st e x y).notes.length = st.notes.length ∧
      (updateNotePosition st e x y).noteCount = st.noteCount ∧
      (updateNotePosition st e x y).messages = st.messages ∧
      (updateNotePosition st e x y).hitokotoCache = st.hitokotoCache ∧
      (updateNotePosition st e x y).usedApiTexts = st.usedApiTexts ∧
      (updateNotePosition st e x y).usedMessages = st.usedMessages ∧
      (updateNotePosition st e x y).currentApiIndex = st.currentApiIndex ∧
      (updateNotePosition st e x y).apiSources = st.apiSources) := by
  constructor
  · intro hno
    have hidx : st.notes.findIdx? (fun note => note.element == e) = none := by
      rw [List.findIdx?_eq_none_iff]
      intro n hn
      simpa using hno n hn
    unfold updateNotePosition
    rw [hidx]
  · intro i old hidx hget
    have hi : i < st.notes.length := (List.findIdx?_eq_some_iff_findIdx_eq.mp hidx).1
    have hset : (updateNotePosition st e x y).notes =
        st.notes.set i { old with x := x, y := y } := by
      simp only [updateNotePosition, hidx, hget]
    refine ⟨?_, rfl, ?_, ?_, ?_, ?_, ?_, ?_, ?_, ?_, ?_⟩
    · rw [hset]
      exact List.getElem?_set_eq_of_lt _ hi
    · intro j hj
      rw [hset]
      exact List.getElem?_set_ne (Ne.symm hj)
    · rw [hset]
      simp
    · simp only [updateNotePosition, hidx, hget]
    · simp only [updateNotePosition, hidx, hget]
    · simp only [updateNotePosition, hidx, hget]
    · simp only [updateNotePosition, hidx, hget]
    · simp only [updateNotePosition, hidx, hget]
    · simp only [updateNotePosition, hidx, hget]
    · simp only [updateNotePosition, hidx, hget]

/-- C10 witness: updating element 2 rewrites its coordinates and leaves
the record of element 1 and the count alone. -/
theorem updateNotePosition_frame_witness :
    (updateNotePosition exSt10 2 9 9).notes[1]? = some ⟨9, 9, 2⟩ ∧
    (updateNotePosition exSt10 2 9 9).notes[0]? = exSt10.notes[0]? ∧
    (updateNotePosition exSt10 2 9 9).noteCount = exSt10.noteCount :=
  ⟨((updateNotePosition_frame exSt10 2 9 9).2 1 ⟨5, 5, 2⟩ rfl rfl).1,
   ((updateNotePosition_frame exSt10 2 9 9).2 1 ⟨5, 5, 2⟩ rfl rfl).2.2.1 0 (by decide),
   ((updateNotePosition_frame exSt10 2 9 9).2 1 ⟨5, 5, 2⟩ rfl rfl).2.2.2.2.1⟩

end NoteWall
